import Mathlib

/-!
Verification of the Modbus RTU monitor hub (`custom_components/modbus_rtu_monitor/hub.py`
together with `const.py`).

The development shallowly embeds the pure core of the hub module:

* the CRC-16 engine (`ModbusRTUDecoder.calculate_crc`),
* the frame codec (`build_write_register_frame`, `decode_frame`),
* the re-framer inner loop of `_monitor_loop` (buffer scanning with
  brute-force trial lengths, byte discards, and the 100-iteration cap),
* the request/response correlator `_handle_frame` acting on the
  `discovered_slaves` / `_pending_requests` dictionaries,
* the availability sweep `_check_slave_availability`,
* the active write path `async_write_setpoint`.

Bytes are modelled as `Nat` (values below 256 on real traffic), byte strings
as `List Nat`, Python dictionaries as association lists (first match wins on
lookup; update replaces in place or appends, mirroring insertion-ordered
dict semantics), timestamps as whole seconds (`Nat`), and temperatures as
exact rationals.  Fallible dictionary indexing (a possible `KeyError`) is
modelled by returning `Option`.
-/

/-! ## Constants (`const.py`) -/

def TEMP_HUMIDITY_REGISTER : Nat := 0x83

def SETPOINT_REGISTER : Nat := 144

def REGISTER_COUNT : Nat := 4

def COIL_START_ADDRESS : Nat := 0x01

def COIL_COUNT : Nat := 40

def REGISTER_START_ADDRESS : Nat := 0xA5

def REGISTER_MONITOR_COUNT : Nat := 20

def REGISTER_START_ADDRESS_2 : Nat := 0xD2

def REGISTER_MONITOR_COUNT_2 : Nat := 8

def REGISTER_START_ADDRESS_3 : Nat := 0x8C

def REGISTER_MONITOR_COUNT_3 : Nat := 23

/-- `AVAILABILITY_TIMEOUT = timedelta(minutes=5)`, counted in seconds. -/
def AVAILABILITY_TIMEOUT : Nat := 300

/-! ## CRC-16 engine (`ModbusRTUDecoder.calculate_crc`) -/

/-- One shift round of the CRC loop: `crc = (crc >> 1) ^ 0xA001` when the
low bit is set, else `crc >>= 1`. -/
def crcRound (crc : Nat) : Nat :=
  if crc % 2 = 1 then (crc / 2) ^^^ 0xA001 else crc / 2

/-- Absorb one byte: `crc ^= byte` followed by eight shift rounds. -/
def crcAbsorb (crc byte : Nat) : Nat :=
  crcRound^[8] (crc ^^^ byte)

/-- `ModbusRTUDecoder.calculate_crc`: fold over the data with initial value
`0xFFFF`. -/
def calculate_crc (data : List Nat) : Nat :=
  data.foldl crcAbsorb 0xFFFF

/-- Read two bytes little-endian (`struct.unpack("<H", ...)`). -/
def readLE2 (l : List Nat) : Nat :=
  l.getD 0 0 + 256 * l.getD 1 0

/-- Serialize a 16-bit quantity little-endian (`struct.pack("<H", ...)`),
as the code does for the CRC trailer. -/
def packLE2 (x : Nat) : List Nat :=
  [x % 256, x / 256]

/-- Serialize a 16-bit quantity big-endian (`struct.pack(">H", ...)`).
Faithful for `x < 65536`; the callers in the hub guarantee the bound. -/
def packBE2 (x : Nat) : List Nat :=
  [x / 256, x % 256]

/-! ## Frame codec (`ModbusRTUDecoder`) -/

/-- `ModbusRTUDecoder.build_write_register_frame`: `[slave_id][0x06]`,
register and value big-endian, CRC little-endian. -/
def build_write_register_frame (slave_id register value : Nat) : List Nat :=
  let body := [slave_id, 0x06] ++ packBE2 register ++ packBE2 value
  body ++ packLE2 (calculate_crc body)

/-- The `ModbusRTUFrame` dataclass of `const.py`.  Optional fields default
to `none` exactly as the Python defaults are `None`. -/
structure ModbusRTUFrame where
  slave_id : Nat
  function_code : Nat
  data : List Nat
  is_request : Bool
  is_response : Bool
  start_address : Option Nat := none
  register_count : Option Nat := none
  values : Option (List Nat) := none
  coil_values : Option (List Bool) := none
deriving DecidableEq, Repr

/-- Coil bitmap unpacking: for `byte_idx` in `0..byte_count-1`, take byte
`frame_data[byte_idx + 1]` and emit its eight bits LSB-first
(`bool(byte_val & (1 << bit_idx))`). -/
def coilBits (frame_data : List Nat) (byte_count : Nat) : List Bool :=
  ((List.range byte_count).map fun byte_idx =>
    (List.range 8).map fun bit_idx => (frame_data.getD (byte_idx + 1) 0).testBit bit_idx).flatten

/-- Register word extraction of the function-3 response branch:
`for i in range(0, byte_count, 2): if i + 1 < byte_count:` read the
big-endian word `frame_data[i+1 : i+3]`. -/
def wordsFrom (frame_data : List Nat) (byte_count i : Nat) : List Nat :=
  if i < byte_count then
    (if i + 1 < byte_count then
      [frame_data.getD (i + 1) 0 * 256 + frame_data.getD (i + 2) 0]
    else []) ++ wordsFrom frame_data byte_count (i + 2)
  else []
termination_by byte_count - i

/-- The shape-classification `if/elif` chain of `decode_frame`, applied to
the base frame (both role flags false) after the CRC check passed. -/
def classify (f : ModbusRTUFrame) : ModbusRTUFrame :=
  if f.function_code = 1 ∧ f.data.length = 4 then
    { f with is_request := true
             start_address := some (f.data.getD 0 0 * 256 + f.data.getD 1 0)
             register_count := some (f.data.getD 2 0 * 256 + f.data.getD 3 0) }
  else if f.function_code = 1 ∧ f.data.length > 1 then
    if f.data.length ≥ f.data.getD 0 0 + 1 then
      { f with is_response := true
               coil_values := some (coilBits f.data (f.data.getD 0 0)) }
    else f
  else if f.function_code = 3 ∧ f.data.length = 4 then
    { f with is_request := true
             start_address := some (f.data.getD 0 0 * 256 + f.data.getD 1 0)
             register_count := some (f.data.getD 2 0 * 256 + f.data.getD 3 0) }
  else if f.function_code = 3 ∧ f.data.length > 1 then
    if f.data.length ≥ f.data.getD 0 0 + 1 then
      { f with is_response := true
               values := some (wordsFrom f.data (f.data.getD 0 0) 0) }
    else f
  else f

/-- `ModbusRTUDecoder.decode_frame`: `None` when shorter than 4 bytes or
when the trailing little-endian CRC does not match the CRC-16 of the
preceding bytes; otherwise the classified frame. -/
def decode_frame (d : List Nat) : Option ModbusRTUFrame :=
  if d.length < 4 then none
  else if readLE2 (d.drop (d.length - 2)) ≠ calculate_crc (d.take (d.length - 2)) then none
  else some (classify
    { slave_id := d.getD 0 0
      function_code := d.getD 1 0
      data := (d.take (d.length - 2)).drop 2
      is_request := false
      is_response := false })

example : decode_frame [1, 2, 129, 225] =
    some { slave_id := 1, function_code := 2, data := [],
           is_request := false, is_response := false } := by decide

example : decode_frame [1, 2, 0, 33] = none := by decide

example : decode_frame [1, 2, 0, 33, 96] =
    some { slave_id := 1, function_code := 2, data := [0],
           is_request := false, is_response := false } := by decide

/-! ## Re-framer (inner loop of `_monitor_loop`)

The loop, per batch of newly arrived bytes: while the buffer holds at least
4 bytes and fewer than 100 iterations have run, try candidate lengths
`frame_len` in `range(4, min(len(buffer) + 1, 256))`; on the first length
whose window decodes, hand the frame to `_handle_frame` and drop that many
bytes; if no length decodes, drop exactly one byte. -/

/-- Scan candidate lengths `L, L+1, ...` (`k` lengths in total) and return
the first decodable window together with its length. -/
def scanGo (buf : List Nat) : Nat → Nat → Option (Nat × ModbusRTUFrame)
  | 0, _ => none
  | k + 1, L =>
    match decode_frame (buf.take L) with
    | some f => some (L, f)
    | none => scanGo buf k (L + 1)

/-- One `for frame_len in range(4, min(len(buffer) + 1, 256))` search:
the shortest decodable candidate length in `[4, min(len 255)]`, if any. -/
def scan (buf : List Nat) : Option (Nat × ModbusRTUFrame) :=
  scanGo buf (min buf.length 255 + 1 - 4) 4

/-- Result of running the inner loop on one buffer: the frames handed to
`_handle_frame` in order, the remaining buffer, the number of single-byte
discards, and the number of loop iterations used. -/
structure ReframeResult where
  frames : List ModbusRTUFrame
  leftover : List Nat
  discards : Nat
  iters : Nat
deriving DecidableEq, Repr

/-- The inner loop with an iteration budget (`max_iterations` in the code):
stop when the budget is exhausted or the buffer is shorter than 4 bytes;
otherwise consume the shortest decodable window, or discard one byte. -/
def drainIter : Nat → List Nat → ReframeResult
  | 0, buf => ⟨[], buf, 0, 0⟩
  | n + 1, buf =>
    if buf.length < 4 then ⟨[], buf, 0, 0⟩
    else
      match scan buf with
      | some (L, f) =>
        let r := drainIter n (buf.drop L)
        ⟨f :: r.frames, r.leftover, r.discards, r.iters + 1⟩
      | none =>
        let r := drainIter n (buf.drop 1)
        ⟨r.frames, r.leftover, r.discards + 1, r.iters + 1⟩

/-- Process one arrival batch: the code runs the inner loop with
`max_iterations = 100`. -/
def reframeBatch (buf : List Nat) : ReframeResult :=
  drainIter 100 buf

/-- Feed a list of arrival batches through the loop, carrying the leftover
buffer from batch to batch, and collect every frame handed to
`_handle_frame`. -/
def runBatches : List (List Nat) → List Nat → List ModbusRTUFrame
  | [], _ => []
  | b :: rest, buf =>
    let r := reframeBatch (buf ++ b)
    r.frames ++ runBatches rest r.leftover

/-- Feed the batches starting from an empty buffer. -/
def feed (batches : List (List Nat)) : List ModbusRTUFrame :=
  runBatches batches []

example : reframeBatch [1, 2, 129, 225] =
    ⟨[{ slave_id := 1, function_code := 2, data := [],
        is_request := false, is_response := false }], [], 0, 1⟩ := by decide

example : feed [[1, 2, 0, 33, 96]] =
    [{ slave_id := 1, function_code := 2, data := [0],
       is_request := false, is_response := false }] := by decide

example : feed [[1, 2, 0, 33], [96]] = [] := by decide

/-! ## Association-list model of Python dictionaries -/

/-- Lookup: first entry with the key. -/
def alistGet {α : Type} : List (Nat × α) → Nat → Option α
  | [], _ => none
  | p :: rest, k => if p.1 = k then some p.2 else alistGet rest k

/-- `d[k] = v`: replace in place if the key is present, else append
(insertion-ordered dict update). -/
def alistSet {α : Type} : List (Nat × α) → Nat → α → List (Nat × α)
  | [], k, v => [(k, v)]
  | p :: rest, k, v => if p.1 = k then (k, v) :: rest else p :: alistSet rest k v

/-- `del d[k]`: drop the entry with the key. -/
def alistDel {α : Type} : List (Nat × α) → Nat → List (Nat × α)
  | [], _ => []
  | p :: rest, k => if p.1 = k then alistDel rest k else p :: alistDel rest k

/-! ## Correlator state (`discovered_slaves` / `_pending_requests`) -/

/-- The `SlaveData` dataclass of `const.py`.  `registers` is the
address-to-signed-value dict. -/
structure SlaveData where
  slave_id : Nat
  temperature : Option ℚ
  humidity : Option ℚ
  last_seen : Nat
  available : Bool := true
  coils : Option (List Bool) := none
  registers : Option (List (Nat × Int)) := none
  setpoint : Option ℚ := none
deriving DecidableEq, Repr

/-- The hub's mutable dictionaries.  `_pending_requests` holds entries under
five key shapes: `f"{id}_coils"`, `f"{id}_registers"`, `f"{id}_registers2"`,
`f"{id}_registers3"`, and the bare int `id` (discovery); the five maps below
model those disjoint key families.  Coil and bare entries record the
timestamp; register entries record timestamp and `start_address`. -/
structure HubState where
  discovered_slaves : List (Nat × SlaveData)
  pendCoils : List (Nat × Nat)
  pendRegs1 : List (Nat × (Nat × Nat))
  pendRegs2 : List (Nat × (Nat × Nat))
  pendRegs3 : List (Nat × (Nat × Nat))
  pendBare : List (Nat × Nat)
deriving DecidableEq, Repr

/-- Python truthiness of an optional list (`None` and `[]` are falsy). -/
def truthy {α : Type} : Option (List α) → Bool
  | some (_ :: _) => true
  | _ => false

/-- `len(frame.values) >= 4` under the guard that `frame.values` is truthy. -/
def valuesLen4 : Option (List Nat) → Bool
  | some vs => decide (4 ≤ vs.length)
  | none => false

/-- Guard of the Read Coils request branch. -/
def gCoilReq (f : ModbusRTUFrame) : Bool :=
  f.is_request && f.function_code == 1 &&
    f.start_address == some COIL_START_ADDRESS && f.register_count == some COIL_COUNT

/-- Guard of the Read Coils response branch. -/
def gCoilResp (s : HubState) (f : ModbusRTUFrame) : Bool :=
  f.is_response && f.function_code == 1 &&
    (alistGet s.pendCoils f.slave_id).isSome && truthy f.coil_values

/-- Guard of the request branch for monitored register range 1. -/
def gRegReq1 (f : ModbusRTUFrame) : Bool :=
  f.is_request && f.function_code == 3 &&
    f.start_address == some REGISTER_START_ADDRESS &&
    f.register_count == some REGISTER_MONITOR_COUNT

/-- Guard of the response branch for monitored register range 1. -/
def gRegResp1 (s : HubState) (f : ModbusRTUFrame) : Bool :=
  f.is_response && f.function_code == 3 &&
    (alistGet s.pendRegs1 f.slave_id).isSome && truthy f.values

/-- Guard of the request branch for monitored register range 2. -/
def gRegReq2 (f : ModbusRTUFrame) : Bool :=
  f.is_request && f.function_code == 3 &&
    f.start_address == some REGISTER_START_ADDRESS_2 &&
    f.register_count == some REGISTER_MONITOR_COUNT_2

/-- Guard of the response branch for monitored register range 2. -/
def gRegResp2 (s : HubState) (f : ModbusRTUFrame) : Bool :=
  f.is_response && f.function_code == 3 &&
    (alistGet s.pendRegs2 f.slave_id).isSome && truthy f.values

/-- Guard of the request branch for monitored register range 3. -/
def gRegReq3 (f : ModbusRTUFrame) : Bool :=
  f.is_request && f.function_code == 3 &&
    f.start_address == some REGISTER_START_ADDRESS_3 &&
    f.register_count == some REGISTER_MONITOR_COUNT_3

/-- Guard of the response branch for monitored register range 3. -/
def gRegResp3 (s : HubState) (f : ModbusRTUFrame) : Bool :=
  f.is_response && f.function_code == 3 &&
    (alistGet s.pendRegs3 f.slave_id).isSome && truthy f.values

/-- Guard of the discovery request branch (no function-code test in the
code: any request to register `0x83` with count 4). -/
def gDiscReq (f : ModbusRTUFrame) : Bool :=
  f.is_request && f.start_address == some TEMP_HUMIDITY_REGISTER &&
    f.register_count == some REGISTER_COUNT

/-- Guard of the temperature/humidity response branch (`slave_id in
self._pending_requests` can only hit the bare-int discovery keys). -/
def gDiscResp (s : HubState) (f : ModbusRTUFrame) : Bool :=
  f.is_response && (alistGet s.pendBare f.slave_id).isSome &&
    truthy f.values && valuesLen4 f.values

/-- `if slave_id not in self.discovered_slaves:` create a fresh `SlaveData`
with `available=False` (the shared preamble of the response branches and of
the discovery request branch). -/
def ensureSlave (m : List (Nat × SlaveData)) (sid now : Nat) : List (Nat × SlaveData) :=
  if (alistGet m sid).isSome then m
  else alistSet m sid
    { slave_id := sid, temperature := none, humidity := none,
      last_seen := now, available := false }

/-- Unsigned-to-signed 16-bit reinterpretation:
`value - 65536 if value > 32767 else value`. -/
def toSigned (value : Nat) : Int :=
  if value > 32767 then (value : Int) - 65536 else (value : Int)

/-- The register-writing loop of the function-3 response branches:
`for idx, value in enumerate(frame.values): registers[start + idx] = signed`. -/
def writeRegs (m : List (Nat × Int)) (sa : Nat) : List Nat → List (Nat × Int)
  | [] => m
  | v :: rest => writeRegs (alistSet m sa (toSigned v)) (sa + 1) rest

/-- Body of a function-3 register-range response branch: ensure the slave,
fetch the recorded `start_address`, fold the signed values into the
`registers` dict, stamp `last_seen`/`available`, and return the updated
slave map (the caller clears its own pending entry). -/
def applyRegResp (slaves : List (Nat × SlaveData)) (sid now : Nat)
    (pend : Option (Nat × Nat)) (vals : Option (List Nat)) :
    Option (List (Nat × SlaveData)) :=
  let m1 := ensureSlave slaves sid now
  match pend, alistGet m1 sid with
  | some (_, sa), some sd =>
    some (alistSet m1 sid
      { sd with registers := some (writeRegs (sd.registers.getD []) sa (vals.getD []))
                last_seen := now
                available := true })
  | _, _ => none

/-- `ModbusRTUMonitorHub._handle_frame`: the `if/elif` chain over a decoded
frame.  `now` is the current timestamp (`utcnow()`).  Returns `none` exactly
when the Python code would raise a `KeyError` (the unguarded
`self.discovered_slaves[slave_id]` lookup in the temperature/humidity
response branch; the `ensureSlave`-guarded lookups cannot fail and their
`none` arms are unreachable). -/
def handle_frame (s : HubState) (f : ModbusRTUFrame) (now : Nat) : Option HubState :=
  let sid := f.slave_id
  if gCoilReq f then
    some { s with pendCoils := alistSet s.pendCoils sid now }
  else if gCoilResp s f then
    let m1 := ensureSlave s.discovered_slaves sid now
    match alistGet m1 sid with
    | some sd =>
      some { s with
        discovered_slaves := alistSet m1 sid
          { sd with coils := some ((f.coil_values.getD []).take COIL_COUNT)
                    last_seen := now
                    available := true }
        pendCoils := alistDel s.pendCoils sid }
    | none => none
  else if gRegReq1 f then
    some { s with pendRegs1 := alistSet s.pendRegs1 sid (now, f.start_address.getD 0) }
  else if gRegResp1 s f then
    match applyRegResp s.discovered_slaves sid now (alistGet s.pendRegs1 sid) f.values with
    | some m2 => some { s with discovered_slaves := m2, pendRegs1 := alistDel s.pendRegs1 sid }
    | none => none
  else if gRegReq2 f then
    some { s with pendRegs2 := alistSet s.pendRegs2 sid (now, f.start_address.getD 0) }
  else if gRegResp2 s f then
    match applyRegResp s.discovered_slaves sid now (alistGet s.pendRegs2 sid) f.values with
    | some m2 => some { s with discovered_slaves := m2, pendRegs2 := alistDel s.pendRegs2 sid }
    | none => none
  else if gRegReq3 f then
    some { s with pendRegs3 := alistSet s.pendRegs3 sid (now, f.start_address.getD 0) }
  else if gRegResp3 s f then
    match applyRegResp s.discovered_slaves sid now (alistGet s.pendRegs3 sid) f.values with
    | some m2 => some { s with discovered_slaves := m2, pendRegs3 := alistDel s.pendRegs3 sid }
    | none => none
  else if gDiscReq f then
    some { s with pendBare := alistSet s.pendBare sid now
                  discovered_slaves := ensureSlave s.discovered_slaves sid now }
  else if gDiscResp s f then
    match alistGet s.discovered_slaves sid with
    | some sd =>
      let vs := f.values.getD []
      some { s with
        discovered_slaves := alistSet s.discovered_slaves sid
          { sd with temperature := some ((vs.getD 2 0 : ℚ) / 10)
                    humidity := some ((vs.getD 3 0 : ℚ) / 10)
                    last_seen := now
                    available := true }
        pendBare := alistDel s.pendBare sid }
    | none => none
  else some s

/-- Disjunction of the ten branch guards: the frame touches one of the
recognized polling patterns in the current state. -/
def matches_pattern (s : HubState) (f : ModbusRTUFrame) : Bool :=
  gCoilReq f || gCoilResp s f || gRegReq1 f || gRegResp1 s f ||
    gRegReq2 f || gRegResp2 s f || gRegReq3 f || gRegResp3 s f ||
    gDiscReq f || gDiscResp s f

/-- Invariant: every bare (discovery) pending key already has its slave in
`discovered_slaves`. -/
def pendBareInv (s : HubState) : Bool :=
  s.pendBare.all fun p => (alistGet s.discovered_slaves p.1).isSome

/-! ## Availability sweep (`_check_slave_availability`) -/

/-- Per-slave body of the sweep: flip `available` off when
`now - last_seen > AVAILABILITY_TIMEOUT` and it was on. -/
def staleFlip (now : Nat) (sd : SlaveData) : SlaveData :=
  if now - sd.last_seen > AVAILABILITY_TIMEOUT ∧ sd.available then
    { sd with available := false }
  else sd

/-- `_check_slave_availability`: sweep every slave; the Bool is the
`updated` flag (whether any entry flipped). -/
def check_slave_availability (now : Nat) (slaves : List (Nat × SlaveData)) :
    List (Nat × SlaveData) × Bool :=
  (slaves.map fun p => (p.1, staleFlip now p.2),
   slaves.any fun p => decide (now - p.2.last_seen > AVAILABILITY_TIMEOUT) && p.2.available)

/-- The sweep ends with `if updated: self._update_coordinator_throttled()`:
number of calls it makes to the throttled updater. -/
def sweep_notify_calls (now : Nat) (slaves : List (Nat × SlaveData)) : Nat :=
  if (check_slave_availability now slaves).2 then 1 else 0

/-! ## Active write path (`async_write_setpoint`) -/

/-- Python `int()` applied to a rational: truncation toward zero. -/
def pyInt (q : ℚ) : Int :=
  q.num.tdiv (q.den : Int)

inductive WriteError where
  | notConnected
  | outOfRange
deriving DecidableEq, Repr

deriving instance DecidableEq for Except

/-- `async_write_setpoint`: raise if no live writer; compute
`value = int(temperature * 10)`; raise if outside `0..65535`; otherwise
build and send the Write Single Register frame.  `.ok` carries exactly the
bytes written to the transport; `.error` means nothing was written. -/
def async_write_setpoint (connected : Bool) (slave_id : Nat) (temperature : ℚ) :
    Except WriteError (List Nat) :=
  if !connected then .error .notConnected
  else
    let value := pyInt (temperature * 10)
    if ¬(0 ≤ value ∧ value ≤ 65535) then .error .outOfRange
    else .ok (build_write_register_frame slave_id SETPOINT_REGISTER value.toNat)

/-- Bytes a write-path call put on the wire. -/
def sentBytes : Except WriteError (List Nat) → List Nat
  | .ok bs => bs
  | .error _ => []

/-- Truncation toward zero agrees with the floor on nonnegative rationals. -/
theorem pyInt_nonneg (q : ℚ) (h : 0 ≤ q) : pyInt q = ⌊q⌋ := by
  rw [pyInt, Rat.floor_def,
    Int.tdiv_eq_ediv (by exact_mod_cast Rat.num_nonneg.mpr h) (by positivity)]

/-- Truncation toward zero commutes with negation (Python `int()` rounds
toward zero on both sides). -/
theorem pyInt_negated (q : ℚ) : pyInt (-q) = -pyInt q := by
  simp [pyInt, Int.neg_tdiv]

example : async_write_setpoint false 5 (43 / 2 : ℚ) = .error .notConnected := rfl

/-! ## Dictionary lemmas -/

theorem alistGet_set_self {α : Type} (m : List (Nat × α)) (k : Nat) (v : α) :
    alistGet (alistSet m k v) k = some v := by
  induction m with
  | nil => simp [alistSet, alistGet]
  | cons p rest ih =>
    by_cases h : p.1 = k
    · simp [alistSet, alistGet, h]
    · simp [alistSet, alistGet, h, ih]

theorem alistGet_set_ne {α : Type} (m : List (Nat × α)) (k j : Nat) (v : α)
    (h : j ≠ k) : alistGet (alistSet m k v) j = alistGet m j := by
  induction m with
  | nil => simp [alistSet, alistGet, Ne.symm h]
  | cons p rest ih =>
    by_cases hp : p.1 = k
    · simp [alistSet, alistGet, hp, Ne.symm h]
    · by_cases hj : p.1 = j <;> simp [alistSet, alistGet, hp, hj, h, ih]

theorem alistGet_del_self {α : Type} (m : List (Nat × α)) (k : Nat) :
    alistGet (alistDel m k) k = none := by
  induction m with
  | nil => simp [alistDel, alistGet]
  | cons p rest ih =>
    by_cases h : p.1 = k
    · simpa [alistDel, h] using ih
    · simpa [alistDel, alistGet, h] using ih

theorem alistGet_del_ne {α : Type} (m : List (Nat × α)) (k j : Nat) (h : j ≠ k) :
    alistGet (alistDel m k) j = alistGet m j := by
  induction m with
  | nil => simp [alistDel, alistGet]
  | cons p rest ih =>
    by_cases hp : p.1 = k
    · simp [alistDel, alistGet, hp, Ne.symm h, ih]
    · by_cases hj : p.1 = j <;> simp [alistDel, alistGet, hp, hj, h, ih]

theorem mem_alistSet {α : Type} (m : List (Nat × α)) (k : Nat) (v : α) (p : Nat × α)
    (hp : p ∈ alistSet m k v) : p = (k, v) ∨ p ∈ m := by
  induction m with
  | nil => simpa [alistSet] using hp
  | cons q rest ih =>
    by_cases h : q.1 = k
    · simp only [alistSet, h, if_pos] at hp
      rcases List.mem_cons.mp hp with h1 | h1
      · exact Or.inl h1
      · exact Or.inr (List.mem_cons_of_mem _ h1)
    · simp only [alistSet, h, if_neg, not_false_iff] at hp
      rcases List.mem_cons.mp hp with h1 | h1
      · exact Or.inr (h1 ▸ List.mem_cons_self _ _)
      · rcases ih h1 with h2 | h2
        · exact Or.inl h2
        · exact Or.inr (List.mem_cons_of_mem _ h2)

theorem mem_of_alistGet_isSome {α : Type} (m : List (Nat × α)) (k : Nat)
    (h : (alistGet m k).isSome) : ∃ v, (k, v) ∈ m := by
  induction m with
  | nil => simp [alistGet] at h
  | cons p rest ih =>
    by_cases hp : p.1 = k
    · exact ⟨p.2, by simp [← hp]⟩
    · simp only [alistGet, hp, if_neg, not_false_iff] at h
      obtain ⟨v, hv⟩ := ih h
      exact ⟨v, List.mem_cons_of_mem _ hv⟩

theorem alistGet_set_isSome {α : Type} (m : List (Nat × α)) (k j : Nat) (v : α)
    (h : (alistGet m j).isSome) : (alistGet (alistSet m k v) j).isSome := by
  by_cases hj : j = k
  · simp [hj, alistGet_set_self]
  · simpa [alistGet_set_ne m k j v hj] using h

theorem ensureSlave_get_self (m : List (Nat × SlaveData)) (sid now : Nat) :
    (alistGet (ensureSlave m sid now) sid).isSome := by
  unfold ensureSlave
  by_cases h : (alistGet m sid).isSome
  · simp [h]
  · simp [h, alistGet_set_self]

theorem ensureSlave_get_ne (m : List (Nat × SlaveData)) (sid now j : Nat)
    (h : j ≠ sid) : alistGet (ensureSlave m sid now) j = alistGet m j := by
  unfold ensureSlave
  by_cases hp : (alistGet m sid).isSome
  · simp [hp]
  · simp [hp, alistGet_set_ne m sid j _ h]

theorem ensureSlave_get_isSome (m : List (Nat × SlaveData)) (sid now j : Nat)
    (h : (alistGet m j).isSome) : (alistGet (ensureSlave m sid now) j).isSome := by
  by_cases hj : j = sid
  · simpa [hj] using ensureSlave_get_self m sid now
  · rwa [ensureSlave_get_ne m sid now j hj]

/-! ## Decoder lemmas -/

/-- The window shapes the classification chain recognizes: function 1 or 3
with a 4-byte payload (request), or function 1 or 3 with payload longer
than one byte and at least `byte_count + 1` bytes (response). -/
def shaped (fc : Nat) (fd : List Nat) : Bool :=
  (fc == 1 && fd.length == 4) ||
    (fc == 1 && decide (fd.length > 1) && decide (fd.length ≥ fd.getD 0 0 + 1)) ||
    (fc == 3 && fd.length == 4) ||
    (fc == 3 && decide (fd.length > 1) && decide (fd.length ≥ fd.getD 0 0 + 1))

/-- On a window whose shape is not recognized, the classification chain
returns its input unchanged. -/
theorem classify_unshaped (f : ModbusRTUFrame)
    (hsh : shaped f.function_code f.data = false) : classify f = f := by
  unfold classify
  split_ifs with h1 h2 h3 h4 h5 h6 <;> try rfl
  · simp [shaped, h1.1, h1.2] at hsh
  · simp only [shaped, h2.1, h2.2] at hsh
    simp [List.getD_eq_getElem?_getD] at hsh h3
    omega
  · simp [shaped, h4.1, h4.2] at hsh
  · simp only [shaped, h5.1, h5.2] at hsh
    simp [List.getD_eq_getElem?_getD] at hsh h6
    omega

/-- `decode_frame` fails exactly on short windows and CRC mismatches. -/
theorem decode_frame_eq_none_iff (d : List Nat) :
    decode_frame d = none ↔
      d.length < 4 ∨
        readLE2 (d.drop (d.length - 2)) ≠ calculate_crc (d.take (d.length - 2)) := by
  unfold decode_frame
  split_ifs with h1 h2 <;> simp [*]

/-- A CRC-valid window of unrecognized shape decodes to a frame with both
role flags false. -/
theorem decode_frame_unshaped (d : List Nat) (h4 : 4 ≤ d.length)
    (hcrc : readLE2 (d.drop (d.length - 2)) = calculate_crc (d.take (d.length - 2)))
    (hsh : shaped (d.getD 1 0) ((d.take (d.length - 2)).drop 2) = false) :
    ∃ f, decode_frame d = some f ∧ f.is_request = false ∧ f.is_response = false := by
  refine ⟨{ slave_id := d.getD 0 0, function_code := d.getD 1 0,
            data := (d.take (d.length - 2)).drop 2,
            is_request := false, is_response := false }, ?_, rfl, rfl⟩
  unfold decode_frame
  rw [if_neg (by omega), if_neg (by simpa using hcrc)]
  rw [classify_unshaped _ hsh]

/-! ## Scan lemmas -/

theorem scanGo_some_sound (buf : List Nat) :
    ∀ (k L L0 : Nat) (f : ModbusRTUFrame), scanGo buf k L = some (L0, f) →
      L ≤ L0 ∧ L0 < L + k ∧ decode_frame (buf.take L0) = some f ∧
        ∀ L2, L ≤ L2 → L2 < L0 → decode_frame (buf.take L2) = none := by
  intro k
  induction k with
  | zero => intro L L0 f h; simp [scanGo] at h
  | succ k ih =>
    intro L L0 f h
    unfold scanGo at h
    cases hdec : decode_frame (buf.take L) with
    | some g =>
      rw [hdec] at h
      simp only [Option.some.injEq, Prod.mk.injEq] at h
      refine ⟨h.1.le, by omega, ?_, ?_⟩
      · rw [← h.1, hdec, h.2]
      · intro L2 hL2 hlt; omega
    | none =>
      rw [hdec] at h
      obtain ⟨ha, hb, hc, hd⟩ := ih (L + 1) L0 f h
      refine ⟨by omega, by omega, hc, ?_⟩
      intro L2 hL2 hlt
      rcases Nat.eq_or_lt_of_le hL2 with he | he
      · rwa [← he]
      · exact hd L2 he hlt

theorem scanGo_none_sound (buf : List Nat) :
    ∀ (k L : Nat), scanGo buf k L = none →
      ∀ L2, L ≤ L2 → L2 < L + k → decode_frame (buf.take L2) = none := by
  intro k
  induction k with
  | zero => intro L h L2 h1 h2; omega
  | succ k ih =>
    intro L h L2 h1 h2
    unfold scanGo at h
    cases hdec : decode_frame (buf.take L) with
    | some g => rw [hdec] at h; exact absurd h (by simp)
    | none =>
      rw [hdec] at h
      rcases Nat.eq_or_lt_of_le h1 with he | he
      · rwa [← he]
      · exact ih (L + 1) h L2 he (by omega)

theorem scanGo_complete (buf : List Nat) :
    ∀ (k L L0 : Nat) (f : ModbusRTUFrame), L ≤ L0 → L0 < L + k →
      decode_frame (buf.take L0) = some f →
      (∀ L2, L ≤ L2 → L2 < L0 → decode_frame (buf.take L2) = none) →
      scanGo buf k L = some (L0, f) := by
  intro k
  induction k with
  | zero => intro L L0 f h1 h2; omega
  | succ k ih =>
    intro L L0 f h1 h2 h3 h4
    unfold scanGo
    rcases Nat.eq_or_lt_of_le h1 with he | he
    · rw [he, h3]
    · rw [h4 L le_rfl he]
      exact ih (L + 1) L0 f he (by omega) h3 fun L2 hL2 hlt => h4 L2 (by omega) hlt

theorem scan_some_sound (buf : List Nat) (L : Nat) (f : ModbusRTUFrame)
    (h : scan buf = some (L, f)) :
    4 ≤ L ∧ L ≤ min buf.length 255 ∧ decode_frame (buf.take L) = some f ∧
      ∀ L2, 4 ≤ L2 → L2 < L → decode_frame (buf.take L2) = none := by
  obtain ⟨h1, h2, h3, h4⟩ := scanGo_some_sound buf _ _ _ _ h
  have hk : min buf.length 255 + 1 - 4 ≠ 0 := by
    intro hz
    rw [scan, hz] at h
    simp [scanGo] at h
  exact ⟨h1, by omega, h3, h4⟩

theorem scan_none_sound (buf : List Nat) (h : scan buf = none) :
    ∀ L, 4 ≤ L → L ≤ min buf.length 255 → decode_frame (buf.take L) = none := by
  intro L hL1 hL2
  exact scanGo_none_sound buf _ _ h L hL1 (by omega)

theorem scan_complete (buf : List Nat) (L : Nat) (f : ModbusRTUFrame)
    (h1 : 4 ≤ L) (h2 : L ≤ min buf.length 255)
    (h3 : decode_frame (buf.take L) = some f)
    (h4 : ∀ L2, 4 ≤ L2 → L2 < L → decode_frame (buf.take L2) = none) :
    scan buf = some (L, f) :=
  scanGo_complete buf _ _ _ _ h1 (by omega) h3 h4

/-- A winning scan is stable under appending bytes at the end of the
buffer: the same shortest window wins. -/
theorem scan_extend (buf ext : List Nat) (L : Nat) (f : ModbusRTUFrame)
    (h : scan buf = some (L, f)) : scan (buf ++ ext) = some (L, f) := by
  obtain ⟨h1, h2, h3, h4⟩ := scan_some_sound buf L f h
  have hlen : L ≤ buf.length := le_trans h2 (min_le_left _ _)
  refine scan_complete _ L f h1 ?_ ?_ ?_
  · simp only [List.length_append]
    omega
  · rwa [List.take_append_of_le_length hlen]
  · intro L2 hL2 hlt
    rw [List.take_append_of_le_length (by omega)]
    exact h4 L2 hL2 hlt

/-! ## Drain-loop lemmas -/

theorem drainIter_zero (buf : List Nat) : drainIter 0 buf = ⟨[], buf, 0, 0⟩ := rfl

theorem drainIter_short (n : Nat) (buf : List Nat) (hbuf : buf.length < 4) :
    drainIter n buf = ⟨[], buf, 0, 0⟩ := by
  cases n with
  | zero => rfl
  | succ n => simp only [drainIter, if_pos hbuf]

theorem drainIter_succ_hit (n : Nat) (buf : List Nat) (L : Nat) (f : ModbusRTUFrame)
    (hbuf : ¬buf.length < 4) (hscan : scan buf = some (L, f)) :
    drainIter (n + 1) buf =
      ⟨f :: (drainIter n (buf.drop L)).frames, (drainIter n (buf.drop L)).leftover,
        (drainIter n (buf.drop L)).discards, (drainIter n (buf.drop L)).iters + 1⟩ := by
  simp only [drainIter, if_neg hbuf, hscan]

theorem drainIter_succ_miss (n : Nat) (buf : List Nat)
    (hbuf : ¬buf.length < 4) (hscan : scan buf = none) :
    drainIter (n + 1) buf =
      ⟨(drainIter n (buf.drop 1)).frames, (drainIter n (buf.drop 1)).leftover,
        (drainIter n (buf.drop 1)).discards + 1, (drainIter n (buf.drop 1)).iters + 1⟩ := by
  simp only [drainIter, if_neg hbuf, hscan]

theorem drainIter_iters_le (n : Nat) : ∀ buf : List Nat,
    (drainIter n buf).iters + (drainIter n buf).leftover.length ≤ buf.length := by
  induction n with
  | zero => intro buf; simp [drainIter_zero]
  | succ n ih =>
    intro buf
    by_cases hlen : buf.length < 4
    · simp [drainIter_short _ _ hlen]
    · cases hscan : scan buf with
      | some p =>
        obtain ⟨L, f⟩ := p
        obtain ⟨hL4, hLle, -, -⟩ := scan_some_sound buf L f hscan
        rw [drainIter_succ_hit n buf L f hlen hscan]
        have := ih (buf.drop L)
        simp only [List.length_drop] at this
        simp only []
        omega
      | none =>
        rw [drainIter_succ_miss n buf hlen hscan]
        have := ih (buf.drop 1)
        simp only [List.length_drop] at this
        simp only []
        omega

theorem drainIter_budget_stable (n : Nat) : ∀ (buf : List Nat) (m : Nat),
    buf.length ≤ n + 3 → n ≤ m → drainIter n buf = drainIter m buf := by
  induction n with
  | zero =>
    intro buf m hlen hm
    rw [drainIter_zero, drainIter_short m buf (by omega)]
  | succ n ih =>
    intro buf m hlen hm
    obtain ⟨m, rfl⟩ : ∃ m2, m = m2 + 1 := ⟨m - 1, by omega⟩
    by_cases hbuf : buf.length < 4
    · rw [drainIter_short _ _ hbuf, drainIter_short _ _ hbuf]
    · cases hscan : scan buf with
      | some p =>
        obtain ⟨L, f⟩ := p
        obtain ⟨hL4, hLle, -, -⟩ := scan_some_sound buf L f hscan
        rw [drainIter_succ_hit n buf L f hbuf hscan,
          drainIter_succ_hit m buf L f hbuf hscan,
          ih (buf.drop L) m (by simp only [List.length_drop]; omega) (by omega)]
      | none =>
        rw [drainIter_succ_miss n buf hbuf hscan,
          drainIter_succ_miss m buf hbuf hscan,
          ih (buf.drop 1) m (by simp only [List.length_drop]; omega) (by omega)]

/-- Concatenation: if a buffer drains completely through frame matches
alone (empty leftover, no discards), appending further bytes processes the
first part identically and then continues into the appended bytes with the
remaining iteration budget. -/
theorem drainIter_append (n : Nat) : ∀ (s1 s2 : List Nat) (fs : List ModbusRTUFrame) (k : Nat),
    drainIter n s1 = ⟨fs, [], 0, k⟩ →
    drainIter n (s1 ++ s2) =
      ⟨fs ++ (drainIter (n - k) s2).frames, (drainIter (n - k) s2).leftover,
        (drainIter (n - k) s2).discards, k + (drainIter (n - k) s2).iters⟩ := by
  induction n with
  | zero =>
    intro s1 s2 fs k h
    rw [drainIter_zero] at h
    obtain ⟨h1, h2, -, h4⟩ := (ReframeResult.mk.injEq _ _ _ _ _ _ _ _).mp h
    subst h2
    rw [List.nil_append, ← h1, ← h4, drainIter_zero]
    simp
  | succ n ih =>
    intro s1 s2 fs k h
    by_cases hbuf : s1.length < 4
    · rw [drainIter_short _ _ hbuf] at h
      obtain ⟨h1, h2, -, h4⟩ := (ReframeResult.mk.injEq _ _ _ _ _ _ _ _).mp h
      subst h2
      rw [List.nil_append, ← h1, ← h4, Nat.sub_zero]
      simp
    · cases hscan : scan s1 with
      | none =>
        rw [drainIter_succ_miss n s1 hbuf hscan] at h
        obtain ⟨-, -, h3, -⟩ := (ReframeResult.mk.injEq _ _ _ _ _ _ _ _).mp h
        omega
      | some p =>
        obtain ⟨L, f⟩ := p
        rw [drainIter_succ_hit n s1 L f hbuf hscan] at h
        obtain ⟨h1, h2, h3, h4⟩ := (ReframeResult.mk.injEq _ _ _ _ _ _ _ _).mp h
        obtain ⟨hL4, hLle, -, -⟩ := scan_some_sound s1 L f hscan
        have hLlen : L ≤ s1.length := le_trans hLle (min_le_left _ _)
        have hr : drainIter n (s1.drop L) =
            ⟨(drainIter n (s1.drop L)).frames, [], 0, (drainIter n (s1.drop L)).iters⟩ := by
          cases he : drainIter n (s1.drop L)
          simp only [he] at h2 h3 ⊢
          simp [h2, h3]
        have happ := ih (s1.drop L) s2 (drainIter n (s1.drop L)).frames
          (drainIter n (s1.drop L)).iters hr
        rw [drainIter_succ_hit n (s1 ++ s2) L f
          (by simp only [List.length_append]; omega)
          (scan_extend s1 s2 L f hscan)]
        rw [List.drop_append_of_le_length hLlen, happ]
        have hk : n + 1 - k = n - (drainIter n (s1.drop L)).iters := by omega
        rw [hk, ← h1]
        simp only [List.cons_append, ReframeResult.mk.injEq, true_and]
        omega

/-! ## Register-write lemmas -/

theorem writeRegs_get_lt (vs : List Nat) : ∀ (m : List (Nat × Int)) (sa k : Nat),
    k < sa → alistGet (writeRegs m sa vs) k = alistGet m k := by
  induction vs with
  | nil => intro m sa k h; rfl
  | cons v rest ih =>
    intro m sa k h
    rw [writeRegs, ih _ (sa + 1) k (by omega), alistGet_set_ne _ _ _ _ (by omega)]

theorem writeRegs_get (vs : List Nat) : ∀ (m : List (Nat × Int)) (sa i : Nat),
    i < vs.length →
    alistGet (writeRegs m sa vs) (sa + i) = some (toSigned (vs.getD i 0)) := by
  induction vs with
  | nil => intro m sa i h; simp at h
  | cons v rest ih =>
    intro m sa i h
    cases i with
    | zero =>
      rw [writeRegs]
      simp only [Nat.add_zero]
      rw [writeRegs_get_lt rest _ (sa + 1) sa (by omega), alistGet_set_self]
      rfl
    | succ i =>
      rw [writeRegs, show sa + (i + 1) = (sa + 1) + i by omega,
        ih _ (sa + 1) i (by simpa using h)]
      rfl

/-! ## Claim theorems -/

/-- C3: `decode_frame` returns `none` exactly when the window is shorter
than 4 bytes or its trailing two bytes, read little-endian, differ from the
CRC-16 of the preceding bytes; and on a CRC-valid window matching none of
the function-1/function-3 request or response shapes it returns a frame
with both `is_request` and `is_response` false (Unclassified), distinct
from `none`. -/
theorem c3_decode_none_iff_unclassified_distinct :
    ∀ d : List Nat,
      (decode_frame d = none ↔
        d.length < 4 ∨
          readLE2 (d.drop (d.length - 2)) ≠ calculate_crc (d.take (d.length - 2))) ∧
      (4 ≤ d.length →
        readLE2 (d.drop (d.length - 2)) = calculate_crc (d.take (d.length - 2)) →
        shaped (d.getD 1 0) ((d.take (d.length - 2)).drop 2) = false →
        ∃ f, decode_frame d = some f ∧ f.is_request = false ∧ f.is_response = false) :=
  fun d => ⟨decode_frame_eq_none_iff d, decode_frame_unshaped d⟩

/-- Witness for C3 at the CRC-valid, shape-unrecognized window
`[1, 2, 129, 225]` (function code 2). -/
theorem c3_witness :
    ∃ f, decode_frame [1, 2, 129, 225] = some f ∧
      f.is_request = false ∧ f.is_response = false :=
  (c3_decode_none_iff_unclassified_distinct [1, 2, 129, 225]).2
    (by decide) (by decide) (by decide)

/-- C4 as stated is false at `b = []`: the window is then just the two CRC
bytes, shorter than 4 bytes, and `decode_frame` returns `none`. -/
theorem c4_counterexample :
    decode_frame (([] : List Nat) ++ packLE2 (calculate_crc [])) = none := by decide

/-- C4 amended: for every byte sequence `b` of length at least 2, the
window `b ++ crc16(b)` (little-endian) decodes CRC-valid — `decode_frame`
does not return `none` on it. -/
theorem c4_crc_round_trip (b : List Nat) (hb : 2 ≤ b.length) :
    decode_frame (b ++ packLE2 (calculate_crc b)) ≠ none := by
  have hlen : (b ++ packLE2 (calculate_crc b)).length = b.length + 2 := by
    simp [packLE2]
  have htake : (b ++ packLE2 (calculate_crc b)).take
      ((b ++ packLE2 (calculate_crc b)).length - 2) = b := by
    rw [hlen, Nat.add_sub_cancel, List.take_append_of_le_length le_rfl, List.take_length]
  have hdrop : (b ++ packLE2 (calculate_crc b)).drop
      ((b ++ packLE2 (calculate_crc b)).length - 2) = packLE2 (calculate_crc b) := by
    rw [hlen, Nat.add_sub_cancel, List.drop_append_of_le_length le_rfl, List.drop_length,
      List.nil_append]
  intro hnone
  rw [decode_frame_eq_none_iff] at hnone
  rcases hnone with hshort | hmismatch
  · omega
  · rw [htake, hdrop, readLE2, packLE2] at hmismatch
    simp [Nat.mod_add_div] at hmismatch

/-- Witness for C4 at `b = [1, 2]`. -/
theorem c4_witness :
    decode_frame ([1, 2] ++ packLE2 (calculate_crc [1, 2])) ≠ none :=
  c4_crc_round_trip [1, 2] (by decide)

set_option maxRecDepth 4000 in
/-- C7: writing the setpoint 21.5 °C to slave 5 while connected sends
exactly the frame `05 06 00 90 00 D7` followed by the CRC-16 of those six
bytes, low byte first (register 144 = 0x0090, value 215 = 0x00D7). -/
theorem c7_setpoint_encode :
    async_write_setpoint true 5 (43 / 2 : ℚ) =
      .ok ([0x05, 0x06, 0x00, 0x90, 0x00, 0xD7] ++
        packLE2 (calculate_crc [0x05, 0x06, 0x00, 0x90, 0x00, 0xD7])) := by
  have hv : pyInt ((43 / 2 : ℚ) * 10) = 215 := by
    have h : ((43 : ℚ) / 2) * 10 = 215 := by norm_num
    rw [h, pyInt_nonneg _ (by norm_num)]
    norm_num
  simp only [async_write_setpoint, hv, Bool.not_true, Bool.false_eq_true, if_false]
  norm_num
  decide

/-- C6 as stated is false: the code computes `int(temperature * 10)`
(truncation toward zero), not `round(temperature * 10)`.  At temperature
−1/16 (= −0.0625 °C) the rounded value is −1, outside 0–65535, so the
claim demands a range error; the code instead truncates to 0 and sends a
frame. -/
theorem c6_counterexample :
    round ((-(1 : ℚ) / 16) * 10) = -1 ∧
      async_write_setpoint true 5 (-(1 : ℚ) / 16) =
        .ok (build_write_register_frame 5 SETPOINT_REGISTER 0) := by
  constructor
  · rw [round_eq]
    norm_num
  · have hv : pyInt ((-(1 : ℚ) / 16) * 10) = 0 := by
      have h : (-(1 : ℚ) / 16) * 10 = -(5 / 8) := by norm_num
      rw [h, pyInt_negated, pyInt_nonneg _ (by norm_num)]
      norm_num
    simp only [async_write_setpoint, hv, Bool.not_true, Bool.false_eq_true, if_false]
    norm_num

/-- C6 amended: `async_write_setpoint` computes
`value = int(temperature * 10)` (truncation toward zero); with no live
transport it fails not-connected (checked first), and when connected it
fails with a range error exactly when that value is outside 0–65535; on
either failure no bytes reach the transport (`sentBytes` is empty). -/
theorem c6_write_setpoint_errors (connected : Bool) (slave_id : Nat) (t : ℚ) :
    (connected = false →
      async_write_setpoint connected slave_id t = .error .notConnected) ∧
    (connected = true → ¬(0 ≤ pyInt (t * 10) ∧ pyInt (t * 10) ≤ 65535) →
      async_write_setpoint connected slave_id t = .error .outOfRange) ∧
    (∀ e, async_write_setpoint connected slave_id t = .error e →
      sentBytes (async_write_setpoint connected slave_id t) = []) := by
  refine ⟨?_, ?_, ?_⟩
  · intro h
    subst h
    rfl
  · intro h hrange
    subst h
    simp [async_write_setpoint, hrange]
  · intro e he
    rw [he]
    rfl

/-- Witness for C6: not-connected failure at 21.5 °C, range failure at
10000 °C (scaled value 100000). -/
theorem c6_witness :
    async_write_setpoint false 5 (43 / 2 : ℚ) = .error .notConnected ∧
      async_write_setpoint true 5 (10000 : ℚ) = .error .outOfRange := by
  constructor
  · exact (c6_write_setpoint_errors false 5 _).1 rfl
  · refine (c6_write_setpoint_errors true 5 _).2.1 rfl ?_
    have hv : pyInt ((10000 : ℚ) * 10) = 100000 := by
      have h : (10000 : ℚ) * 10 = 100000 := by norm_num
      rw [h, pyInt_nonneg _ (by norm_num)]
      norm_num
    rw [hv]
    omega

/-- C1 as stated is false: at buffer `[1, 2, 129, 225]` the only candidate
window (the whole buffer) decodes CRC-valid but Unclassified — no length
yields a Request/Response-classified frame — yet the inner loop consumes
all four bytes (the frame object is truthy) instead of discarding exactly
the first byte. -/
theorem c1_counterexample :
    decode_frame [1, 2, 129, 225] =
      some ⟨1, 2, [], false, false, none, none, none, none⟩ ∧
    (reframeBatch [1, 2, 129, 225]).leftover = [] ∧
    (reframeBatch [1, 2, 129, 225]).leftover ≠ [2, 129, 225] ∧
    (reframeBatch [1, 2, 129, 225]).discards = 0 ∧
    (reframeBatch [1, 2, 129, 225]).frames =
      [⟨1, 2, [], false, false, none, none, none, none⟩] := by decide

/-- C1 amended: one inner-loop iteration on a buffer of length at least 4
advances by the smallest candidate length `L` in `[4, min(len, 255)]`
whose window decodes to any frame — Request, Response, or Unclassified
alike — emitting that frame; only when no candidate length decodes at all
is exactly the first byte discarded. -/
theorem c1_reframe_step (n : Nat) (buf : List Nat) (h4 : 4 ≤ buf.length) :
    (∀ L f, scan buf = some (L, f) →
      4 ≤ L ∧ L ≤ min buf.length 255 ∧ decode_frame (buf.take L) = some f ∧
      (∀ L2, 4 ≤ L2 → L2 < L → decode_frame (buf.take L2) = none) ∧
      drainIter (n + 1) buf =
        ⟨f :: (drainIter n (buf.drop L)).frames, (drainIter n (buf.drop L)).leftover,
          (drainIter n (buf.drop L)).discards, (drainIter n (buf.drop L)).iters + 1⟩) ∧
    (scan buf = none →
      (∀ L, 4 ≤ L → L ≤ min buf.length 255 → decode_frame (buf.take L) = none) ∧
      drainIter (n + 1) buf =
        ⟨(drainIter n (buf.drop 1)).frames, (drainIter n (buf.drop 1)).leftover,
          (drainIter n (buf.drop 1)).discards + 1, (drainIter n (buf.drop 1)).iters + 1⟩) := by
  constructor
  · intro L f hscan
    obtain ⟨h1, h2, h3, hmin⟩ := scan_some_sound buf L f hscan
    exact ⟨h1, h2, h3, hmin, drainIter_succ_hit n buf L f (by omega) hscan⟩
  · intro hscan
    exact ⟨scan_none_sound buf hscan, drainIter_succ_miss n buf (by omega) hscan⟩

/-- Witness for C1 at the Unclassified-window buffer `[1, 2, 129, 225]`. -/
theorem c1_witness :
    4 ≤ ([1, 2, 129, 225] : List Nat).length ∧
    drainIter 1 [1, 2, 129, 225] =
      ⟨[⟨1, 2, [], false, false, none, none, none, none⟩], [], 0, 1⟩ := by
  have h := (c1_reframe_step 0 [1, 2, 129, 225] (by decide)).1 4
    ⟨1, 2, [], false, false, none, none, none, none⟩ (by decide)
  refine ⟨by decide, ?_⟩
  rw [h.2.2.2.2]
  decide

/-- C2 as stated is false: the five-byte CRC-valid frame
`[1, 2, 0, 33, 96]` is recovered when fed in one batch, but feeding its
first four bytes and then the last byte destroys it — the first batch
discards the frame's first byte before the final byte arrives. -/
theorem c2_counterexample :
    [1, 2, 0, 33, 96] = [1, 2, 0, 33] ++ [96] ∧
      feed [[1, 2, 0, 33, 96]] ≠ feed [[1, 2, 0, 33], [96]] := by decide

/-- C2 amended: batch boundaries are invisible exactly on clean frame
boundaries — if the first batch drains completely through frame matches
alone (empty leftover, no byte discards) and the combined stream is short
enough that the 100-iteration cap never binds, then one batch and two
batches emit the same frame sequence. -/
theorem c2_batch_split (s1 s2 : List Nat) (fs : List ModbusRTUFrame) (k : Nat)
    (h1 : reframeBatch s1 = ⟨fs, [], 0, k⟩)
    (h2 : s1.length + s2.length ≤ 103) :
    feed [s1 ++ s2] = feed [s1, s2] := by
  have hk : k ≤ s1.length := by
    have hle := drainIter_iters_le 100 s1
    rw [show drainIter 100 s1 = reframeBatch s1 from rfl, h1] at hle
    simpa using hle
  have happ := drainIter_append 100 s1 s2 fs k h1
  have hstable : drainIter (100 - k) s2 = drainIter 100 s2 :=
    drainIter_budget_stable (100 - k) s2 100 (by omega) (by omega)
  simp only [feed, runBatches, List.nil_append, List.append_nil, reframeBatch] at h1 ⊢
  rw [happ, hstable, h1]
  simp

/-- Witness for C2: two cleanly framed batches of one Unclassified frame
each. -/
theorem c2_witness :
    feed [[1, 2, 129, 225, 1, 2, 129, 225]] =
      feed [[1, 2, 129, 225], [1, 2, 129, 225]] :=
  c2_batch_split [1, 2, 129, 225] [1, 2, 129, 225]
    [⟨1, 2, [], false, false, none, none, none, none⟩] 1 (by decide) (by decide)

/-- C8: a decoded frame matching none of the correlator's ten recognized
patterns in the current state — requests outside the monitored ranges,
responses with no pending entry of the matching kind for their slave, and
Unclassified frames — falls through the whole `elif` chain and leaves the
state (both `discovered_slaves` and `_pending_requests`) untouched. -/
theorem c8_unmatched_frame_inert (s : HubState) (f : ModbusRTUFrame) (now : Nat)
    (h : matches_pattern s f = false) : handle_frame s f now = some s := by
  simp only [matches_pattern, Bool.or_eq_false_iff] at h
  obtain ⟨⟨⟨⟨⟨⟨⟨⟨⟨h1, h2⟩, h3⟩, h4⟩, h5⟩, h6⟩, h7⟩, h8⟩, h9⟩, h10⟩ := h
  simp only [handle_frame, h1, h2, h3, h4, h5, h6, h7, h8, h9, h10,
    Bool.false_eq_true, if_false]

/-- Witness for C8: an Unclassified frame against a state with one
discovered slave and one pending discovery entry. -/
theorem c8_witness :
    handle_frame
      ⟨[(5, ⟨5, none, none, 0, true, none, none, none⟩)], [], [], [], [], [(5, 0)]⟩
      ⟨1, 2, [], false, false, none, none, none, none⟩ 7 =
      some ⟨[(5, ⟨5, none, none, 0, true, none, none, none⟩)], [], [], [], [], [(5, 0)]⟩ :=
  c8_unmatched_frame_inert _ _ 7 (by decide)

/-- C5: a function-3 response frame with values, arriving while a matching
range-1 pending entry `(ts, sa)` exists for its slave, writes
`toSigned(value)` into the slave's register dict at `sa + i` for every
offset `i` (65535 ↦ −1, 32768 ↦ −32768, 32767 ↦ 32767, 0 ↦ 0), stamps
`last_seen = now`, sets `available`, and clears the pending entry (the
slave entry is created if absent). -/
theorem c5_register_response (s : HubState) (f : ModbusRTUFrame) (now ts sa : Nat)
    (vs : List Nat)
    (hreq : f.is_request = false) (hresp : f.is_response = true)
    (hfc : f.function_code = 3)
    (hpend : alistGet s.pendRegs1 f.slave_id = some (ts, sa))
    (hvals : f.values = some vs) (hne : vs ≠ []) :
    ∃ s1 sd1, handle_frame s f now = some s1 ∧
      alistGet s1.discovered_slaves f.slave_id = some sd1 ∧
      (∀ i, i < vs.length →
        alistGet (sd1.registers.getD []) (sa + i) = some (toSigned (vs.getD i 0))) ∧
      sd1.last_seen = now ∧ sd1.available = true ∧
      alistGet s1.pendRegs1 f.slave_id = none ∧
      toSigned 65535 = -1 ∧ toSigned 32768 = -32768 ∧
      toSigned 32767 = 32767 ∧ toSigned 0 = 0 := by
  obtain ⟨v, rest, rfl⟩ : ∃ v rest, vs = v :: rest := by
    cases vs with
    | nil => exact absurd rfl hne
    | cons v rest => exact ⟨v, rest, rfl⟩
  have hg1 : gCoilReq f = false := by simp [gCoilReq, hreq]
  have hg2 : gCoilResp s f = false := by simp [gCoilResp, hfc]
  have hg3 : gRegReq1 f = false := by simp [gRegReq1, hreq]
  have hg4 : gRegResp1 s f = true := by
    simp [gRegResp1, hresp, hfc, hpend, hvals, truthy]
  obtain ⟨sd0, hsd0⟩ :=
    Option.isSome_iff_exists.mp
      (ensureSlave_get_self s.discovered_slaves f.slave_id now)
  simp only [handle_frame, hg1, hg2, hg3, hg4, Bool.false_eq_true, if_false, if_true,
    applyRegResp, hpend, hvals, hsd0]
  refine ⟨_, _, rfl, alistGet_set_self _ _ _, ?_, rfl, rfl, ?_, by decide, by decide,
    by decide, by decide⟩
  · intro i hi
    simpa using writeRegs_get (v :: rest) (sd0.registers.getD []) sa i hi
  · exact alistGet_del_self _ _

/-- Witness for C5: values `[65535, 0]` recorded for slave 5 with pending
start address 165. -/
theorem c5_witness :
    ∃ s1 sd1,
      handle_frame ⟨[], [], [(5, (0, 165))], [], [], []⟩
        ⟨5, 3, [4, 255, 255, 0, 0], false, true, none, none, some [65535, 0], none⟩
        7 = some s1 ∧
      alistGet s1.discovered_slaves 5 = some sd1 ∧
      (∀ i, i < ([65535, 0] : List Nat).length →
        alistGet (sd1.registers.getD []) (165 + i) =
          some (toSigned (([65535, 0] : List Nat).getD i 0))) ∧
      sd1.last_seen = 7 ∧ sd1.available = true ∧
      alistGet s1.pendRegs1 5 = none ∧
      toSigned 65535 = -1 ∧ toSigned 32768 = -32768 ∧
      toSigned 32767 = 32767 ∧ toSigned 0 = 0 :=
  c5_register_response ⟨[], [], [(5, (0, 165))], [], [], []⟩
    ⟨5, 3, [4, 255, 255, 0, 0], false, true, none, none, some [65535, 0], none⟩
    7 0 165 [65535, 0] rfl rfl rfl (by decide) rfl (by decide)

/-! ## Sweep and correlator helper lemmas -/

theorem alistGet_mem {α : Type} (m : List (Nat × α)) (k : Nat) (v : α)
    (h : alistGet m k = some v) : (k, v) ∈ m := by
  induction m with
  | nil => simp [alistGet] at h
  | cons p rest ih =>
    rw [alistGet] at h
    by_cases hp : p.1 = k
    · rw [if_pos hp, Option.some.injEq] at h
      exact List.mem_cons.mpr (Or.inl (by rw [← hp, ← h]))
    · rw [if_neg hp] at h
      exact List.mem_cons_of_mem _ (ih h)

theorem check_avail_get (now : Nat) (slaves : List (Nat × SlaveData)) (sid : Nat) :
    alistGet (check_slave_availability now slaves).1 sid =
      (alistGet slaves sid).map (staleFlip now) := by
  induction slaves with
  | nil => rfl
  | cons p rest ih =>
    by_cases h : p.1 = sid <;>
      simp only [check_slave_availability, List.map_cons, alistGet, h, if_pos, if_neg,
        not_false_iff, Option.map_some, if_true] <;>
      first
        | rfl
        | exact ih

theorem ensureSlave_get_eq (m : List (Nat × SlaveData)) (sid now j : Nat)
    (h : (alistGet m j).isSome) :
    alistGet (ensureSlave m sid now) j = alistGet m j := by
  by_cases hx : j = sid
  · subst hx
    unfold ensureSlave
    by_cases hs : (alistGet m j).isSome
    · rw [if_pos hs]
    · exact absurd h hs
  · exact ensureSlave_get_ne m sid now j hx

theorem alistSet_lookup_cases (m : List (Nat × SlaveData)) (sid sid2 : Nat)
    (v sd0 sd1 : SlaveData)
    (h1 : alistGet (alistSet m sid v) sid2 = some sd1)
    (h0 : alistGet m sid2 = some sd0) (hne : sd1 ≠ sd0) : sd1 = v := by
  by_cases hx : sid2 = sid
  · subst hx
    rw [alistGet_set_self, Option.some.injEq] at h1
    exact h1.symm
  · rw [alistGet_set_ne _ _ _ _ hx, h0, Option.some.injEq] at h1
    exact absurd h1.symm hne

/-- Any slave entry changed by handling a non-request frame has
`available = true` afterwards: every response branch that touches a slave
stamps it available. -/
theorem response_update_available (s : HubState) (f : ModbusRTUFrame) (now : Nat)
    (s1 : HubState) (sid : Nat) (sd0 sd1 : SlaveData)
    (hreq : f.is_request = false) (h : handle_frame s f now = some s1)
    (h0 : alistGet s.discovered_slaves sid = some sd0)
    (h1 : alistGet s1.discovered_slaves sid = some sd1) (hne : sd1 ≠ sd0) :
    sd1.available = true := by
  have hg1 : gCoilReq f = false := by simp [gCoilReq, hreq]
  have hg3 : gRegReq1 f = false := by simp [gRegReq1, hreq]
  have hg5 : gRegReq2 f = false := by simp [gRegReq2, hreq]
  have hg7 : gRegReq3 f = false := by simp [gRegReq3, hreq]
  have hg9 : gDiscReq f = false := by simp [gDiscReq, hreq]
  have hens : (alistGet (ensureSlave s.discovered_slaves f.slave_id now) sid).isSome := by
    exact ensureSlave_get_isSome _ _ _ _ (by simp [h0])
  have hens_eq : alistGet (ensureSlave s.discovered_slaves f.slave_id now) sid =
      some sd0 := by
    rw [ensureSlave_get_eq _ _ _ _ (by simp [h0]), h0]
  simp only [handle_frame, hg1, hg3, hg5, hg7, hg9, Bool.false_eq_true, if_false] at h
  by_cases hg2 : gCoilResp s f
  · rw [if_pos hg2] at h
    cases hsd : alistGet (ensureSlave s.discovered_slaves f.slave_id now) f.slave_id with
    | none => rw [hsd] at h; exact absurd h (by simp)
    | some sd =>
      rw [hsd, Option.some.injEq] at h
      subst h
      simp only at h1
      rw [alistSet_lookup_cases _ _ _ _ _ _ h1 hens_eq hne]
  · rw [if_neg hg2] at h
    by_cases hg4 : gRegResp1 s f
    · rw [if_pos hg4] at h
      simp only [applyRegResp] at h
      cases hp : alistGet s.pendRegs1 f.slave_id with
      | none => rw [hp] at h; exact absurd h (by simp)
      | some pe =>
        rw [hp] at h
        cases hsd : alistGet (ensureSlave s.discovered_slaves f.slave_id now) f.slave_id with
        | none => rw [hsd] at h; exact absurd h (by simp)
        | some sd =>
          rw [hsd, Option.some.injEq] at h
          subst h
          simp only at h1
          rw [alistSet_lookup_cases _ _ _ _ _ _ h1 hens_eq hne]
    · rw [if_neg hg4] at h
      by_cases hg6 : gRegResp2 s f
      · rw [if_pos hg6] at h
        simp only [applyRegResp] at h
        cases hp : alistGet s.pendRegs2 f.slave_id with
        | none => rw [hp] at h; exact absurd h (by simp)
        | some pe =>
          rw [hp] at h
          cases hsd : alistGet (ensureSlave s.discovered_slaves f.slave_id now) f.slave_id with
          | none => rw [hsd] at h; exact absurd h (by simp)
          | some sd =>
            rw [hsd, Option.some.injEq] at h
            subst h
            simp only at h1
            rw [alistSet_lookup_cases _ _ _ _ _ _ h1 hens_eq hne]
      · rw [if_neg hg6] at h
        by_cases hg8 : gRegResp3 s f
        · rw [if_pos hg8] at h
          simp only [applyRegResp] at h
          cases hp : alistGet s.pendRegs3 f.slave_id with
          | none => rw [hp] at h; exact absurd h (by simp)
          | some pe =>
            rw [hp] at h
            cases hsd : alistGet (ensureSlave s.discovered_slaves f.slave_id now) f.slave_id with
            | none => rw [hsd] at h; exact absurd h (by simp)
            | some sd =>
              rw [hsd, Option.some.injEq] at h
              subst h
              simp only at h1
              rw [alistSet_lookup_cases _ _ _ _ _ _ h1 hens_eq hne]
        · rw [if_neg hg8] at h
          by_cases hg10 : gDiscResp s f
          · rw [if_pos hg10] at h
            cases hsd : alistGet s.discovered_slaves f.slave_id with
            | none => rw [hsd] at h; exact absurd h (by simp)
            | some sd =>
              rw [hsd, Option.some.injEq] at h
              subst h
              simp only at h1
              rw [alistSet_lookup_cases _ _ _ _ _ _ h1 h0 hne]
          · rw [if_neg hg10, Option.some.injEq] at h
            subst h
            rw [h0, Option.some.injEq] at h1
            exact absurd h1.symm hne

/-- C9: the availability sweep flips `available` off for every slave with
`now − last_seen > AVAILABILITY_TIMEOUT` (5 minutes = 300 s) that was
available, and then makes exactly one call to the throttled notifier; a
slave last seen 301 s ago flips on the next sweep; and any slave entry
changed by handling a response frame comes out with `available = true`
(accepted updates restore availability). -/
theorem c9_staleness_sweep :
    (∀ (now : Nat) (slaves : List (Nat × SlaveData)) (sid : Nat) (sd : SlaveData),
      alistGet slaves sid = some sd →
      now - sd.last_seen > AVAILABILITY_TIMEOUT → sd.available = true →
      alistGet (check_slave_availability now slaves).1 sid =
        some { sd with available := false } ∧
      sweep_notify_calls now slaves = 1) ∧
    (check_slave_availability 1000
        [(3, ⟨3, none, none, 699, true, none, none, none⟩)]).1 =
      [(3, ⟨3, none, none, 699, false, none, none, none⟩)] ∧
    sweep_notify_calls 1000 [(3, ⟨3, none, none, 699, true, none, none, none⟩)] = 1 ∧
    (∀ (s : HubState) (f : ModbusRTUFrame) (now : Nat) (s1 : HubState)
      (sid : Nat) (sd0 sd1 : SlaveData),
      f.is_request = false → handle_frame s f now = some s1 →
      alistGet s.discovered_slaves sid = some sd0 →
      alistGet s1.discovered_slaves sid = some sd1 → sd1 ≠ sd0 →
      sd1.available = true) := by
  refine ⟨?_, by decide, by decide, response_update_available⟩
  intro now slaves sid sd hget hstale havail
  constructor
  · rw [check_avail_get, hget]
    simp [staleFlip, hstale, havail]
  · have hmem := alistGet_mem slaves sid sd hget
    rw [sweep_notify_calls, if_pos]
    rw [check_slave_availability]
    simp only [List.any_eq_true]
    exact ⟨(sid, sd), hmem, by simp [hstale, havail]⟩

/-- Witness for C9 at the 301-second-stale slave 3. -/
theorem c9_witness :
    alistGet (check_slave_availability 1000
        [(3, ⟨3, none, none, 699, true, none, none, none⟩)]).1 3 =
      some { slave_id := 3, temperature := none, humidity := none, last_seen := 699,
             available := false, coils := none, registers := none, setpoint := none } ∧
    sweep_notify_calls 1000 [(3, ⟨3, none, none, 699, true, none, none, none⟩)] = 1 :=
  c9_staleness_sweep.1 1000 [(3, ⟨3, none, none, 699, true, none, none, none⟩)] 3
    ⟨3, none, none, 699, true, none, none, none⟩ (by decide) (by decide) rfl

theorem mem_alistDel {α : Type} (m : List (Nat × α)) (k : Nat) (p : Nat × α)
    (hp : p ∈ alistDel m k) : p ∈ m := by
  induction m with
  | nil => simp [alistDel] at hp
  | cons q rest ih =>
    rw [alistDel] at hp
    by_cases hq : q.1 = k
    · rw [if_pos hq] at hp
      exact List.mem_cons_of_mem _ (ih hp)
    · rw [if_neg hq] at hp
      rcases List.mem_cons.mp hp with h1 | h1
      · exact h1 ▸ List.mem_cons_self _ _
      · exact List.mem_cons_of_mem _ (ih h1)

theorem pendBareInv_iff (s : HubState) :
    pendBareInv s = true ↔
      ∀ p ∈ s.pendBare, (alistGet s.discovered_slaves p.1).isSome := by
  simp [pendBareInv, List.all_eq_true]

/-- C10: if every bare (discovery) pending key already has its slave in
`discovered_slaves`, then `_handle_frame` cannot hit the unguarded
`discovered_slaves[slave_id]` lookup of the discovery-response branch (no
`KeyError`, i.e. the result is `some`), and the invariant still holds
afterwards: the discovery request branch is the only writer of bare
pending keys and it creates the slave in the same step, while no branch
ever removes a slave. -/
theorem c10_discovery_invariant (s : HubState) (f : ModbusRTUFrame) (now : Nat)
    (hinv : pendBareInv s = true) :
    ∃ s1, handle_frame s f now = some s1 ∧ pendBareInv s1 = true := by
  have hinvP := (pendBareInv_iff s).mp hinv
  by_cases hg1 : gCoilReq f
  · simp only [handle_frame, hg1, if_true]
    refine ⟨_, rfl, ?_⟩
    rw [pendBareInv_iff]
    exact hinvP
  · have hn1 := Bool.eq_false_iff.mpr hg1
    by_cases hg2 : gCoilResp s f
    · cases hsd : alistGet (ensureSlave s.discovered_slaves f.slave_id now) f.slave_id with
      | none =>
        exact absurd (ensureSlave_get_self s.discovered_slaves f.slave_id now)
          (by simp [hsd])
      | some sd =>
        simp only [handle_frame, hn1, hg2, Bool.false_eq_true, if_false, if_true, hsd]
        refine ⟨_, rfl, ?_⟩
        rw [pendBareInv_iff]
        intro p hp
        exact alistGet_set_isSome _ _ _ _ (ensureSlave_get_isSome _ _ _ _ (hinvP p hp))
    · have hn2 := Bool.eq_false_iff.mpr hg2
      by_cases hg3 : gRegReq1 f
      · simp only [handle_frame, hn1, hn2, hg3, Bool.false_eq_true, if_false, if_true]
        refine ⟨_, rfl, ?_⟩
        rw [pendBareInv_iff]
        exact hinvP
      · have hn3 := Bool.eq_false_iff.mpr hg3
        by_cases hg4 : gRegResp1 s f
        · have hps : (alistGet s.pendRegs1 f.slave_id).isSome := by
            simp [gRegResp1] at hg4
            simp [hg4]
          obtain ⟨pe, hpe⟩ := Option.isSome_iff_exists.mp hps
          obtain ⟨ts, sa⟩ := pe
          cases hsd : alistGet (ensureSlave s.discovered_slaves f.slave_id now)
              f.slave_id with
          | none =>
            exact absurd (ensureSlave_get_self s.discovered_slaves f.slave_id now)
              (by simp [hsd])
          | some sd =>
            simp only [handle_frame, hn1, hn2, hn3, hg4, Bool.false_eq_true, if_false, if_true, applyRegResp, hpe, hsd]
            refine ⟨_, rfl, ?_⟩
            rw [pendBareInv_iff]
            intro p hp
            exact alistGet_set_isSome _ _ _ _
              (ensureSlave_get_isSome _ _ _ _ (hinvP p hp))
        · have hn4 := Bool.eq_false_iff.mpr hg4
          by_cases hg5 : gRegReq2 f
          · simp only [handle_frame, hn1, hn2, hn3, hn4, hg5, Bool.false_eq_true, if_false, if_true]
            refine ⟨_, rfl, ?_⟩
            rw [pendBareInv_iff]
            exact hinvP
          · have hn5 := Bool.eq_false_iff.mpr hg5
            by_cases hg6 : gRegResp2 s f
            · have hps : (alistGet s.pendRegs2 f.slave_id).isSome := by
                simp [gRegResp2] at hg6
                simp [hg6]
              obtain ⟨pe, hpe⟩ := Option.isSome_iff_exists.mp hps
              obtain ⟨ts, sa⟩ := pe
              cases hsd : alistGet (ensureSlave s.discovered_slaves f.slave_id now)
                  f.slave_id with
              | none =>
                exact absurd (ensureSlave_get_self s.discovered_slaves f.slave_id now)
                  (by simp [hsd])
              | some sd =>
                simp only [handle_frame, hn1, hn2, hn3, hn4, hn5, hg6, Bool.false_eq_true, if_false, if_true, applyRegResp, hpe, hsd]
                refine ⟨_, rfl, ?_⟩
                rw [pendBareInv_iff]
                intro p hp
                exact alistGet_set_isSome _ _ _ _
                  (ensureSlave_get_isSome _ _ _ _ (hinvP p hp))
            · have hn6 := Bool.eq_false_iff.mpr hg6
              by_cases hg7 : gRegReq3 f
              · simp only [handle_frame, hn1, hn2, hn3, hn4, hn5, hn6, hg7, Bool.false_eq_true, if_false, if_true]
                refine ⟨_, rfl, ?_⟩
                rw [pendBareInv_iff]
                exact hinvP
              · have hn7 := Bool.eq_false_iff.mpr hg7
                by_cases hg8 : gRegResp3 s f
                · have hps : (alistGet s.pendRegs3 f.slave_id).isSome := by
                    simp [gRegResp3] at hg8
                    simp [hg8]
                  obtain ⟨pe, hpe⟩ := Option.isSome_iff_exists.mp hps
                  obtain ⟨ts, sa⟩ := pe
                  cases hsd : alistGet (ensureSlave s.discovered_slaves f.slave_id now)
                      f.slave_id with
                  | none =>
                    exact absurd (ensureSlave_get_self s.discovered_slaves
                      f.slave_id now) (by simp [hsd])
                  | some sd =>
                    simp only [handle_frame, hn1, hn2, hn3, hn4, hn5, hn6, hn7, hg8, Bool.false_eq_true, if_false, if_true, applyRegResp, hpe, hsd]
                    refine ⟨_, rfl, ?_⟩
                    rw [pendBareInv_iff]
                    intro p hp
                    exact alistGet_set_isSome _ _ _ _
                      (ensureSlave_get_isSome _ _ _ _ (hinvP p hp))
                · have hn8 := Bool.eq_false_iff.mpr hg8
                  by_cases hg9 : gDiscReq f
                  · simp only [handle_frame, hn1, hn2, hn3, hn4, hn5, hn6, hn7, hn8, hg9, Bool.false_eq_true, if_false, if_true]
                    refine ⟨_, rfl, ?_⟩
                    rw [pendBareInv_iff]
                    intro p hp
                    simp only at hp ⊢
                    rcases mem_alistSet _ _ _ p hp with h1 | h1
                    · rw [h1]
                      exact ensureSlave_get_self _ _ _
                    · exact ensureSlave_get_isSome _ _ _ _ (hinvP p h1)
                  · have hn9 := Bool.eq_false_iff.mpr hg9
                    by_cases hg10 : gDiscResp s f
                    · have hps : (alistGet s.pendBare f.slave_id).isSome := by
                        simp [gDiscResp] at hg10
                        simp [hg10]
                      obtain ⟨ts, hts⟩ := Option.isSome_iff_exists.mp hps
                      have hslave : (alistGet s.discovered_slaves f.slave_id).isSome :=
                        hinvP (f.slave_id, ts) (alistGet_mem _ _ _ hts)
                      obtain ⟨sd, hsd⟩ := Option.isSome_iff_exists.mp hslave
                      simp only [handle_frame, hn1, hn2, hn3, hn4, hn5, hn6, hn7, hn8, hn9, hg10, Bool.false_eq_true, if_false, if_true, hsd]
                      refine ⟨_, rfl, ?_⟩
                      rw [pendBareInv_iff]
                      intro p hp
                      simp only at hp ⊢
                      exact alistGet_set_isSome _ _ _ _
                        (hinvP p (mem_alistDel _ _ _ hp))
                    · have hn10 := Bool.eq_false_iff.mpr hg10
                      simp only [handle_frame, hn1, hn2, hn3, hn4, hn5, hn6, hn7, hn8, hn9, hn10, Bool.false_eq_true, if_false]
                      exact ⟨s, rfl, hinv⟩

/-- Witness for C10: a state with a bare pending entry for slave 5, whose
slave record exists, against a discovery-response frame. -/
theorem c10_witness :
    ∃ s1, handle_frame
      ⟨[(5, ⟨5, none, none, 0, true, none, none, none⟩)], [], [], [], [], [(5, 0)]⟩
      ⟨5, 3, [8, 0, 0, 0, 0, 0, 235, 2, 100], false, true, none, none,
        some [0, 0, 235, 612], none⟩ 7 = some s1 ∧ pendBareInv s1 = true :=
  c10_discovery_invariant
    ⟨[(5, ⟨5, none, none, 0, true, none, none, none⟩)], [], [], [], [], [(5, 0)]⟩
    ⟨5, 3, [8, 0, 0, 0, 0, 0, 235, 2, 100], false, true, none, none,
      some [0, 0, 235, 612], none⟩ 7 (by decide)
